import Mathlib

/-!
Verification of the gap-analysis / advisory-rule core of the
Data-Strategy-Explorer repository.

The definitions below are a shallow embedding of the Python source:
  - `lenses_tab.py` : `MATURITY_THEMES`, `MATURITY_SCALE`, `maturity_label`, `AXES`
  - `journey_tab.py`: `conflict_for_target` and the gap/ranking/action-seeding
    computation inside `render_journey`
  - `dashboard.py`  : the journey-tab gap computation of the older prototype

Python dictionaries holding scores are embedded as association lists
(`List (String × ℤ)`); a missing key (Python `KeyError`) surfaces as `none`.
Python's `round` (round-half-to-even on these inputs) is embedded as `pyRound`
over `ℚ`.
-/

/-- The ten lens axes, from `lenses_tab.py` (`AXES`): name, left label, right label. -/
def AXES : List (String × String × String) :=
  [ ("Abstraction Level", "Conceptual", "Logical / Physical"),
    ("Adaptability", "Living", "Fixed"),
    ("Ambition", "Essential", "Transformational"),
    ("Coverage", "Horizontal", "Use-case-based"),
    ("Governance Structure", "Ecosystem / Federated", "Centralised"),
    ("Orientation", "Technology-focused", "Value-focused"),
    ("Motivation", "Compliance-driven", "Innovation-driven"),
    ("Access Philosophy", "Data-democratised", "Controlled access"),
    ("Delivery Mode", "Incremental", "Big Bang"),
    ("Decision Model", "Data-informed", "Data-driven") ]

/-- The six maturity theme names, from `lenses_tab.py` (`MATURITY_THEMES`). -/
def MATURITY_THEMES : List String :=
  [ "Uses", "Data", "Leadership", "Culture", "Tools", "Skills" ]

/-- The maturity scale, from `lenses_tab.py` (`MATURITY_SCALE`).  The Python
dictionary maps exactly 1..5; `maturity_label` only applies it to clamped
indices in 1..5, so the final else-branch is never reached from there. -/
def MATURITY_SCALE (i : ℤ) : String :=
  if i = 1 then "Beginning"
  else if i = 2 then "Emerging"
  else if i = 3 then "Learning"
  else if i = 4 then "Developing"
  else "Mastering"

/-- Python's `round` on the rational values reaching `maturity_label`
(averages `k/6`): round half to even.  Stated on numerator/denominator so the
kernel can evaluate it; `pyRound_eq` below re-expresses it through `⌊q⌋` and
the fractional part: floor when the fraction is below a half, floor + 1 when
above, and the even neighbour on an exact half. -/
def pyRound (q : ℚ) : ℤ :=
  if 2 * (q.num - Rat.floor q * (q.den : ℤ)) < (q.den : ℤ) then Rat.floor q
  else if (q.den : ℤ) < 2 * (q.num - Rat.floor q * (q.den : ℤ)) then Rat.floor q + 1
  else if Rat.floor q % 2 = 0 then Rat.floor q else Rat.floor q + 1

/-- `maturity_label` from `lenses_tab.py`:
`idx = int(round(avg)); idx = max(1, min(5, idx)); return MATURITY_SCALE[idx]`. -/
def maturity_label (avg : ℚ) : String :=
  MATURITY_SCALE (max 1 (min 5 (pyRound avg)))

/-- A maturity-score dictionary: theme name → integer score. -/
abbrev MaturityProfile := List (String × ℤ)

/-- `m_avg = sum(m_scores.values()) / len(m_scores)` from `render_journey`. -/
def m_average (m : MaturityProfile) : ℚ :=
  ((m.map (·.2)).sum : ℚ) / (m.length : ℚ)

/-- The maturity aggregation performed by `render_journey` (lines 55-57):
the unrounded average together with `maturity_label` applied to it. -/
def aggregate (m : MaturityProfile) : ℚ × String :=
  (m_average m, maturity_label (m_average m))

/-- `conflict_for_target` from `journey_tab.py`.  The Python body is two
guarded blocks of sequential early-return `if`s; flattening them into one
`if`-chain with the block guard conjoined to each condition preserves the
semantics exactly. -/
def conflict_for_target (lens_name : String) (target_score : ℤ) (maturity_avg : ℚ) :
    Option String :=
  let level := maturity_label maturity_avg
  let low := level = "Beginning" ∨ level = "Emerging"
  let highish := level = "Developing" ∨ level = "Mastering"
  if low ∧ lens_name = "Delivery Mode" ∧ 70 ≤ target_score then
    some "Big-bang at Beginning/Emerging maturity is high risk — consider phased delivery."
  else if low ∧ lens_name = "Governance Structure" ∧ target_score ≤ 30 then
    some "Federated at low maturity can fragment standards — strengthen central controls first."
  else if low ∧ lens_name = "Access Philosophy" ∧ target_score ≤ 30 then
    some "Wide democratisation needs strong basics — start with controlled, role-based access."
  else if low ∧ lens_name = "Decision Model" ∧ 70 ≤ target_score then
    some "Highly data-driven decisions need robust data quality, monitoring and skills."
  else if low ∧ lens_name = "Motivation" ∧ 70 ≤ target_score then
    some "Innovation-first without guardrails can raise risk — keep compliance in the loop."
  else if highish ∧ lens_name = "Delivery Mode" ∧ target_score ≤ 30 then
    some "At Developing/Mastering, being too incremental may under-deliver benefits."
  else if highish ∧ lens_name = "Governance Structure" ∧ 80 ≤ target_score then
    some "Highly centralised models may slow teams at higher maturity — consider selective federation."
  else if highish ∧ lens_name = "Access Philosophy" ∧ 80 ≤ target_score then
    some "Excessive control may limit value realisation — revisit openness where safe."
  else none

/-- A lens-score dictionary: axis name → integer score. -/
abbrev ScoreProfile := List (String × ℤ)

/-- One row of the gap table built by `render_journey` (lines 69-80). -/
structure GapRow where
  lens : String
  current : ℤ
  target : ℤ
  change_needed : ℤ
  magnitude : ℤ
  direction : String
  conflict : Bool
  conflict_note : String
deriving DecidableEq, Inhabited

/-- One iteration of the row-building loop in `render_journey` (lines 60-80). -/
def mkRow (d left_lbl right_lbl : String) (c t : ℤ) (q : ℚ) : GapRow :=
  { lens := d
    current := c
    target := t
    change_needed := t - c
    magnitude := |t - c|
    direction :=
      if 0 < t - c then "→ **" ++ right_lbl ++ "**"
      else if t - c < 0 then "→ **" ++ left_lbl ++ "**"
      else "—"
    conflict := (conflict_for_target d t q).isSome
    conflict_note := (conflict_for_target d t q).getD "" }

/-- The row-building loop of `render_journey` over a list of axes.  Python's
`target[d]` / `current[d]` lookups raise `KeyError` on a missing key, embedded
here as `none`; `target[d]` is evaluated first in `diff = target[d] - current[d]`. -/
def gapRowsAux (cur tgt : ScoreProfile) (q : ℚ) :
    List (String × String × String) → Option (List GapRow)
  | [] => some []
  | (d, left_lbl, right_lbl) :: rest =>
    match tgt.lookup d with
    | none => none
    | some t =>
      match cur.lookup d with
      | none => none
      | some c =>
        match gapRowsAux cur tgt q rest with
        | none => none
        | some rows => some (mkRow d left_lbl right_lbl c t q :: rows)

/-- The unranked gap rows of `render_journey`, one per axis in declaration order. -/
def gapRows (cur tgt : ScoreProfile) (q : ℚ) : Option (List GapRow) :=
  gapRowsAux cur tgt q AXES

/-- The sort key of `gap_df.sort_values(["Conflict", "Magnitude"],
ascending=[False, False])`: conflicts first, then magnitude descending;
pandas' multi-column sort is stable. -/
def gapLE (a b : GapRow) : Bool :=
  (a.conflict && !b.conflict) ||
    ((a.conflict == b.conflict) && decide (b.magnitude ≤ a.magnitude))

/-- The ranked gap report of `render_journey` (lines 81-83). -/
def analyze (cur tgt : ScoreProfile) (q : ℚ) : Option (List GapRow) :=
  (gapRows cur tgt q).map (fun rows => rows.mergeSort gapLE)

/-- One row of the seeded action table (`render_journey` lines 148-158). -/
structure ActionRow where
  priority : ℕ
  lens : String
  direction : String
  owner : String
  timeline : String
  metric : String
  status : String
deriving DecidableEq, Inhabited

/-- `[a[1] for a in AXES if a[0] == d][0]` and its right-label twin: the
left/right labels of the axis named `d`, `none` when the comprehension is
empty (Python `IndexError`). -/
def labelsFor (d : String) : Option (String × String) :=
  ((AXES.filter (fun a => a.1 == d)).head?).map (fun a => (a.2.1, a.2.2))

/-- One iteration of the action-seeding loop (`render_journey` lines 137-158),
with `i` the 1-based `enumerate` counter. -/
def seed_action_row (i : ℕ) (row : GapRow) : Option ActionRow :=
  (labelsFor row.lens).map (fun lr =>
    { priority := i
      lens := row.lens
      direction :=
        if 0 < row.change_needed then "toward " ++ lr.2
        else if row.change_needed < 0 then "toward " ++ lr.1
        else "no change"
      owner := ""
      timeline := ""
      metric := ""
      status := "" })

/-- The action-seeding loop over a row list, threading the 1-based counter. -/
def seedActionsAux : ℕ → List GapRow → Option (List ActionRow)
  | _, [] => some []
  | i, row :: rest =>
    match seed_action_row i row with
    | none => none
    | some a =>
      match seedActionsAux (i + 1) rest with
      | none => none
      | some rows => some (a :: rows)

/-- The action seeder of `render_journey` (lines 113-159): take the first
`top_n` ranked rows (`TOP_N = 3` in the source) and emit one placeholder
`ActionRow` per row, `priority` assigned by input order starting at 1. -/
def seed_actions (ranked : List GapRow) (top_n : ℕ) : Option (List ActionRow) :=
  seedActionsAux 1 (ranked.take top_n)

/-- One row of the gap table built by `dashboard.py`'s journey tab
(lines 447-452): same fields as `GapRow` minus the conflict columns. -/
structure DashRow where
  lens : String
  current : ℤ
  target : ℤ
  change_needed : ℤ
  magnitude : ℤ
  direction : String
deriving DecidableEq, Inhabited

/-- The row-building loop of `dashboard.py`'s journey tab (lines 446-452). -/
def dashRowsAux (cur tgt : ScoreProfile) :
    List (String × String × String) → Option (List DashRow)
  | [] => some []
  | (d, left_lbl, right_lbl) :: rest =>
    match tgt.lookup d with
    | none => none
    | some t =>
      match cur.lookup d with
      | none => none
      | some c =>
        match dashRowsAux cur tgt rest with
        | none => none
        | some rows =>
          some ({ lens := d
                  current := c
                  target := t
                  change_needed := t - c
                  magnitude := |t - c|
                  direction :=
                    if 0 < t - c then "→ **" ++ right_lbl ++ "**"
                    else if t - c < 0 then "→ **" ++ left_lbl ++ "**"
                    else "—" } :: rows)

/-- The unranked gap rows of `dashboard.py`'s journey tab. -/
def dashRows (cur tgt : ScoreProfile) : Option (List DashRow) :=
  dashRowsAux cur tgt AXES

/-- The ranking of `dashboard.py`'s journey tab:
`sort_values("Magnitude", ascending=False)`, magnitude alone. -/
def dashAnalyze (cur tgt : ScoreProfile) : Option (List DashRow) :=
  (dashRows cur tgt).map (fun rows =>
    rows.mergeSort (fun a b => decide (b.magnitude ≤ a.magnitude)))

/-- Forgetting the conflict columns of a `GapRow` leaves a `DashRow`. -/
def toDashRow (r : GapRow) : DashRow :=
  { lens := r.lens
    current := r.current
    target := r.target
    change_needed := r.change_needed
    magnitude := r.magnitude
    direction := r.direction }

/-- A score dictionary is valid when its key set is exactly the ten axis names
and every value lies in 0..100. -/
def ValidScoreProfile (p : ScoreProfile) : Prop :=
  (p.map Prod.fst).Perm (AXES.map Prod.fst) ∧ ∀ pr ∈ p, 0 ≤ pr.2 ∧ pr.2 ≤ 100

/-- A maturity dictionary is valid when its key set is exactly the six theme
names and every value lies in 1..5. -/
def ValidMaturityProfile (m : MaturityProfile) : Prop :=
  (m.map Prod.fst).Perm MATURITY_THEMES ∧ ∀ pr ∈ m, 1 ≤ pr.2 ∧ pr.2 ≤ 5

/-- Rank of a maturity level name in the ordered scale, for monotonicity
statements. -/
def levelRank (s : String) : ℕ :=
  if s = "Beginning" then 1
  else if s = "Emerging" then 2
  else if s = "Learning" then 3
  else if s = "Developing" then 4
  else if s = "Mastering" then 5
  else 0

/-- The default score dictionary, `{d: 50 for d in dims}`. -/
def profile50 : ScoreProfile := AXES.map (fun a => (a.1, 50))

/-- The default maturity dictionary, `{k: 3 for k, _ in MATURITY_THEMES}`. -/
def maturity3 : MaturityProfile := MATURITY_THEMES.map (fun k => (k, 3))

/-- All six themes scored 1. -/
def maturity1 : MaturityProfile := MATURITY_THEMES.map (fun k => (k, 1))

/-- All six themes scored 5. -/
def maturity5 : MaturityProfile := MATURITY_THEMES.map (fun k => (k, 5))

/-- A score dictionary with the right keys but one value far outside 0..100. -/
def profileBad : ScoreProfile :=
  [ ("Abstraction Level", 50), ("Adaptability", 50), ("Ambition", 150),
    ("Coverage", 50), ("Governance Structure", 50), ("Orientation", 50),
    ("Motivation", 50), ("Access Philosophy", 50), ("Delivery Mode", 50),
    ("Decision Model", 50) ]

/-- The scenario profile `current["Governance Structure"] = 80`, rest 50. -/
def curGov : ScoreProfile :=
  [ ("Abstraction Level", 50), ("Adaptability", 50), ("Ambition", 50),
    ("Coverage", 50), ("Governance Structure", 80), ("Orientation", 50),
    ("Motivation", 50), ("Access Philosophy", 50), ("Delivery Mode", 50),
    ("Decision Model", 50) ]

/-- The scenario profile `target["Governance Structure"] = 20`, rest 50. -/
def tgtGov : ScoreProfile :=
  [ ("Abstraction Level", 50), ("Adaptability", 50), ("Ambition", 50),
    ("Coverage", 50), ("Governance Structure", 20), ("Orientation", 50),
    ("Motivation", 50), ("Access Philosophy", 50), ("Delivery Mode", 50),
    ("Decision Model", 50) ]

/-- A sample ten-row ranked input for the action seeder: one row per axis. -/
def sampleRows : List GapRow :=
  AXES.map (fun a => mkRow a.1 a.2.1 a.2.2 50 60 3)

instance (p : ScoreProfile) : Decidable (ValidScoreProfile p) := by
  unfold ValidScoreProfile
  infer_instance

instance (m : MaturityProfile) : Decidable (ValidMaturityProfile m) := by
  unfold ValidMaturityProfile
  infer_instance

/-!  Helper lemmas. -/

/-- Batteries' `Rat.floor` agrees with the `⌊·⌋` of the `FloorRing` instance. -/
theorem ratFloor_eq_floor (q : ℚ) : Rat.floor q = ⌊q⌋ := by
  rw [Rat.floor_def', Rat.floor_def]

theorem q_mul_den (q : ℚ) : q * (q.den : ℚ) = (q.num : ℚ) := by
  have hd : ((q.den : ℚ)) ≠ 0 := by exact_mod_cast q.den_pos.ne'
  have h : (q.num : ℚ) = q * (q.den : ℚ) := by
    rw [← div_eq_iff hd]
    exact Rat.num_div_den q
  exact h.symm

/-- `pyRound` through `⌊·⌋` and the fractional part: round down below a half,
round up above a half, and take the even neighbour on an exact half. -/
theorem pyRound_eq (q : ℚ) :
    pyRound q =
      if q - (⌊q⌋ : ℚ) < 1 / 2 then ⌊q⌋
      else if 1 / 2 < q - (⌊q⌋ : ℚ) then ⌊q⌋ + 1
      else if ⌊q⌋ % 2 = 0 then ⌊q⌋ else ⌊q⌋ + 1 := by
  have hd : (0 : ℚ) < (q.den : ℚ) := by exact_mod_cast q.den_pos
  have hqd := q_mul_den q
  have h1 : 2 * (q.num - ⌊q⌋ * (q.den : ℤ)) < (q.den : ℤ) ↔ q - (⌊q⌋ : ℚ) < 1 / 2 := by
    constructor
    · intro h
      have hq : ((2 * (q.num - ⌊q⌋ * (q.den : ℤ)) : ℤ) : ℚ) < ((q.den : ℤ) : ℚ) := by
        exact_mod_cast h
      push_cast at hq
      have h2 : (q - (⌊q⌋ : ℚ)) * (2 * (q.den : ℚ)) < (1 / 2) * (2 * (q.den : ℚ)) := by
        nlinarith [hqd]
      exact lt_of_mul_lt_mul_right h2 (by positivity)
    · intro h
      have h2 : (q - (⌊q⌋ : ℚ)) * (2 * (q.den : ℚ)) < (1 / 2) * (2 * (q.den : ℚ)) := by
        apply mul_lt_mul_of_pos_right h
        positivity
      have hq : ((2 * (q.num - ⌊q⌋ * (q.den : ℤ)) : ℤ) : ℚ) < ((q.den : ℤ) : ℚ) := by
        push_cast
        nlinarith [hqd]
      exact_mod_cast hq
  have h2 : (q.den : ℤ) < 2 * (q.num - ⌊q⌋ * (q.den : ℤ)) ↔ 1 / 2 < q - (⌊q⌋ : ℚ) := by
    constructor
    · intro h
      have hq : ((q.den : ℤ) : ℚ) < ((2 * (q.num - ⌊q⌋ * (q.den : ℤ)) : ℤ) : ℚ) := by
        exact_mod_cast h
      push_cast at hq
      have h2 : (1 / 2) * (2 * (q.den : ℚ)) < (q - (⌊q⌋ : ℚ)) * (2 * (q.den : ℚ)) := by
        nlinarith [hqd]
      exact lt_of_mul_lt_mul_right h2 (by positivity)
    · intro h
      have h2 : (1 / 2) * (2 * (q.den : ℚ)) < (q - (⌊q⌋ : ℚ)) * (2 * (q.den : ℚ)) := by
        apply mul_lt_mul_of_pos_right h
        positivity
      have hq : ((q.den : ℤ) : ℚ) < ((2 * (q.num - ⌊q⌋ * (q.den : ℤ)) : ℤ) : ℚ) := by
        push_cast
        nlinarith [hqd]
      exact_mod_cast hq
  unfold pyRound
  rw [ratFloor_eq_floor]
  exact if_congr h1 rfl (if_congr h2 rfl rfl)

/-- `pyRound` lands on the floor or the floor plus one. -/
theorem pyRound_bounds (q : ℚ) : ⌊q⌋ ≤ pyRound q ∧ pyRound q ≤ ⌊q⌋ + 1 := by
  rw [pyRound_eq]
  split_ifs <;> omega

/-- `pyRound` is monotone. -/
theorem pyRound_mono {q r : ℚ} (h : q ≤ r) : pyRound q ≤ pyRound r := by
  have hfl : ⌊q⌋ ≤ ⌊r⌋ := Int.floor_mono h
  rcases eq_or_lt_of_le hfl with heq | hlt
  · have hfr : q - (⌊q⌋ : ℚ) ≤ r - (⌊r⌋ : ℚ) := by
      rw [← heq]
      linarith
    rw [pyRound_eq, pyRound_eq, ← heq]
    rw [← heq] at hfr
    split_ifs <;> first | omega | linarith
  · have h1 := pyRound_bounds q
    have h2 := pyRound_bounds r
    omega

/-- `pyRound q` is within a half of `q`. -/
theorem pyRound_nearest (q : ℚ) : |q - (pyRound q : ℚ)| ≤ 1 / 2 := by
  have hlo := Int.floor_le q
  have hhi := Int.lt_floor_add_one q
  rw [pyRound_eq]
  split_ifs with c1 c2 c3 <;> rw [abs_le] <;> constructor <;> push_cast <;> linarith

/-- On a nonnegative argument `pyRound` is nonnegative, and on an argument at
most `5` it is at most `5` (the clamp in `maturity_label` is inert there). -/
theorem pyRound_range {q : ℚ} (h1 : 1 ≤ q) (h5 : q ≤ 5) :
    1 ≤ pyRound q ∧ pyRound q ≤ 5 := by
  have hb := pyRound_bounds q
  have hlo : (1 : ℤ) ≤ ⌊q⌋ := by
    exact_mod_cast Int.le_floor.mpr (by exact_mod_cast h1)
  have hhi : ⌊q⌋ ≤ 5 := by
    have : ⌊q⌋ ≤ ⌊(5 : ℚ)⌋ := Int.floor_mono h5
    simpa using this
  rcases eq_or_lt_of_le hhi with heq | hlt
  · have hq5 : q = 5 := by
      have h1 := Int.floor_le q
      rw [heq] at h1
      push_cast at h1
      linarith
    subst hq5
    rw [pyRound_eq]
    norm_num
  · omega


theorem gapRowsAux_sound (cur tgt : ScoreProfile) (q : ℚ) :
    ∀ (axes : List (String × String × String)) (rows : List GapRow),
      gapRowsAux cur tgt q axes = some rows →
      rows.map (·.lens) = axes.map (·.1) ∧
      ∀ r ∈ rows, ∃ a ∈ axes, ∃ c t, cur.lookup a.1 = some c ∧ tgt.lookup a.1 = some t ∧
        r = mkRow a.1 a.2.1 a.2.2 c t q := by
  intro axes
  induction axes with
  | nil =>
    intro rows h
    simp only [gapRowsAux, Option.some_inj] at h
    subst h
    simp
  | cons a rest ih =>
    intro rows h
    obtain ⟨d, l, rl⟩ := a
    simp only [gapRowsAux] at h
    cases ht : List.lookup d tgt with
    | none => rw [ht] at h; exact absurd h (by simp)
    | some t =>
      rw [ht] at h
      cases hc : List.lookup d cur with
      | none => rw [hc] at h; exact absurd h (by simp)
      | some c =>
        rw [hc] at h
        cases hrest : gapRowsAux cur tgt q rest with
        | none => rw [hrest] at h; exact absurd h (by simp)
        | some rs =>
          rw [hrest, Option.some_inj] at h
          subst h
          obtain ⟨hmap, hmem⟩ := ih rs hrest
          constructor
          · simp [hmap, mkRow]
          · intro r hr
            rcases List.mem_cons.mp hr with h1 | h1
            · exact ⟨(d, l, rl), by simp, c, t, hc, ht, by rw [h1]⟩
            · obtain ⟨a2, ha2, c', t', h3, h4, h5⟩ := hmem r h1
              exact ⟨a2, by simp [ha2], c', t', h3, h4, h5⟩

theorem gapRowsAux_eq_none_iff (cur tgt : ScoreProfile) (q : ℚ) :
    ∀ axes, gapRowsAux cur tgt q axes = none ↔
      ∃ a ∈ axes, tgt.lookup a.1 = none ∨ cur.lookup a.1 = none := by
  intro axes
  induction axes with
  | nil => simp [gapRowsAux]
  | cons a rest ih =>
    obtain ⟨d, l, rl⟩ := a
    constructor
    · intro h
      simp only [gapRowsAux] at h
      cases ht : List.lookup d tgt with
      | none => exact ⟨(d, l, rl), List.mem_cons_self _ _, Or.inl ht⟩
      | some t =>
        rw [ht] at h
        cases hc : List.lookup d cur with
        | none => exact ⟨(d, l, rl), List.mem_cons_self _ _, Or.inr hc⟩
        | some c =>
          rw [hc] at h
          cases hrest : gapRowsAux cur tgt q rest with
          | none =>
            obtain ⟨a2, ha2, hor⟩ := ih.mp hrest
            exact ⟨a2, List.mem_cons_of_mem _ ha2, hor⟩
          | some rs => rw [hrest] at h; exact absurd h (by simp)
    · rintro ⟨a2, ha2, hor⟩
      simp only [gapRowsAux]
      rcases List.mem_cons.mp ha2 with rfl | hmem
      · dsimp only at hor
        rcases hor with h | h
        · rw [h]
        · cases ht : List.lookup d tgt with
          | none => rfl
          | some t => rw [h]
      · cases ht : List.lookup d tgt with
        | none => rfl
        | some t =>
          cases hc : List.lookup d cur with
          | none => rfl
          | some c => rw [ih.mpr ⟨a2, hmem, hor⟩]

theorem lookup_isSome_of_mem_keys {p : List (String × ℤ)} {d : String}
    (h : d ∈ p.map Prod.fst) : ∃ v, p.lookup d = some v := by
  induction p with
  | nil => simp at h
  | cons pr rest ih =>
    by_cases hd : d = pr.1
    · exact ⟨pr.2, by simp [List.lookup, hd]⟩
    · simp only [List.map_cons, List.mem_cons] at h
      rcases h with h | h
      · exact absurd h hd
      · obtain ⟨v, hv⟩ := ih h
        have hb : (d == pr.1) = false := beq_eq_false_iff_ne.mpr hd
        exact ⟨v, by simp [List.lookup, hb, hv]⟩

/-- On valid profiles the row builder succeeds. -/
theorem gapRows_isSome_of_valid {cur tgt : ScoreProfile} (q : ℚ)
    (hc : ValidScoreProfile cur) (ht : ValidScoreProfile tgt) :
    ∃ rows, gapRows cur tgt q = some rows := by
  cases hrows : gapRows cur tgt q with
  | some rows => exact ⟨rows, rfl⟩
  | none =>
    obtain ⟨a, ha, hor⟩ := (gapRowsAux_eq_none_iff cur tgt q AXES).mp hrows
    have hmemT : a.1 ∈ tgt.map Prod.fst :=
      ht.1.symm.mem_iff.mp (List.mem_map_of_mem Prod.fst ha)
    have hmemC : a.1 ∈ cur.map Prod.fst :=
      hc.1.symm.mem_iff.mp (List.mem_map_of_mem Prod.fst ha)
    obtain ⟨v1, hv1⟩ := lookup_isSome_of_mem_keys hmemT
    obtain ⟨v2, hv2⟩ := lookup_isSome_of_mem_keys hmemC
    rcases hor with h | h
    · rw [hv1] at h; exact absurd h (by simp)
    · rw [hv2] at h; exact absurd h (by simp)

/-- The arrow-direction string is never the em-dash placeholder. -/
theorem arrow_ne_dash (s : String) : ("→ **" ++ s ++ "**") ≠ "—" := by
  intro h
  have h1 := congrArg String.length h
  rw [String.length_append, String.length_append] at h1
  have e1 : String.length "→ **" = 4 := rfl
  have e2 : String.length "**" = 2 := rfl
  have e3 : String.length "—" = 1 := rfl
  rw [e1, e2, e3] at h1
  omega

theorem gapLE_trans (a b c : GapRow) (h1 : gapLE a b) (h2 : gapLE b c) : gapLE a c := by
  unfold gapLE at *
  cases ha : a.conflict <;> cases hb : b.conflict <;> cases hc : c.conflict <;>
    simp_all <;> omega

theorem gapLE_total (a b : GapRow) : gapLE a b || gapLE b a := by
  unfold gapLE
  cases ha : a.conflict <;> cases hb : b.conflict <;> simp_all <;> omega

theorem direction_dash_iff (lbl rlbl : String) (x : ℤ) :
    ((if 0 < x then "→ **" ++ rlbl ++ "**" else if x < 0 then "→ **" ++ lbl ++ "**" else "—") = "—")
      ↔ x = 0 := by
  rcases lt_trichotomy x 0 with h | h | h
  · rw [if_neg (by omega), if_pos h]
    simp only [arrow_ne_dash lbl, false_iff]
    omega
  · subst h
    simp
  · rw [if_pos h]
    simp only [arrow_ne_dash rlbl, false_iff]
    omega

/-- C1: for every pair of valid ScoreProfiles and every maturity average, the
gap analyzer of `render_journey` returns exactly ten rows, one per fixed axis
with no duplicates and no omissions, and on each row `change_needed` is
exactly `target - current`, `magnitude` is `|change_needed|`, and the
direction is the em-dash placeholder exactly when `change_needed = 0`
(right label if positive, left label if negative). -/
theorem analyze_returns_ten_rows (cur tgt : ScoreProfile) (q : ℚ)
    (hc : ValidScoreProfile cur) (ht : ValidScoreProfile tgt) :
    ∃ out, analyze cur tgt q = some out ∧ out.length = 10 ∧
      (out.map (·.lens)).Perm (AXES.map Prod.fst) ∧
      ∀ r ∈ out,
        cur.lookup r.lens = some r.current ∧
        tgt.lookup r.lens = some r.target ∧
        r.change_needed = r.target - r.current ∧
        r.magnitude = |r.change_needed| ∧
        (∃ a ∈ AXES, a.1 = r.lens ∧
          r.direction = (if 0 < r.change_needed then "→ **" ++ a.2.2 ++ "**"
            else if r.change_needed < 0 then "→ **" ++ a.2.1 ++ "**" else "—")) ∧
        (r.direction = "—" ↔ r.change_needed = 0) := by
  obtain ⟨rows, hrows⟩ := gapRows_isSome_of_valid q hc ht
  obtain ⟨hmap, hmem⟩ := gapRowsAux_sound cur tgt q AXES rows hrows
  refine ⟨rows.mergeSort gapLE, ?_, ?_, ?_, ?_⟩
  · simp [analyze, hrows]
  · rw [List.length_mergeSort]
    have h10 := congrArg List.length hmap
    simp only [List.length_map] at h10
    rw [h10]
    rfl
  · have hperm : (rows.mergeSort gapLE).Perm rows := List.mergeSort_perm rows gapLE
    have h2 := hperm.map (·.lens)
    rw [hmap] at h2
    exact h2
  · intro r hr
    have hr2 : r ∈ rows := List.mem_mergeSort.mp hr
    obtain ⟨a, ha, c, t, hcl, htl, heq⟩ := hmem r hr2
    obtain ⟨d, lbl, rlbl⟩ := a
    subst heq
    refine ⟨?_, ?_, ?_, ?_, ⟨(d, lbl, rlbl), ha, ?_, ?_⟩, ?_⟩
    · simpa [mkRow] using hcl
    · simpa [mkRow] using htl
    · simp [mkRow]
    · simp [mkRow]
    · simp [mkRow]
    · simp [mkRow]
    · simpa [mkRow] using direction_dash_iff lbl rlbl (t - c)

/-- Witness for C1: the default all-50 profiles are valid and produce a
ten-row report. -/
theorem analyze_returns_ten_rows_witness :
    ValidScoreProfile profile50 ∧
      ∃ out, analyze profile50 profile50 3 = some out ∧ out.length = 10 := by
  refine ⟨by decide, ?_⟩
  obtain ⟨out, h1, h2, h3, h4⟩ :=
    analyze_returns_ten_rows profile50 profile50 3 (by decide) (by decide)
  exact ⟨out, h1, h2⟩

theorem gapLE_spec {a b : GapRow} (h : gapLE a b = true) :
    (b.conflict = true → a.conflict = true) ∧
    (a.conflict = b.conflict → b.magnitude ≤ a.magnitude) := by
  unfold gapLE at h
  cases ha : a.conflict <;> cases hb : b.conflict <;> simp_all

/-- A stable sort leaves the rows matching any one sort key in their original
relative order: filtering the sorted output by that key gives exactly the
filter of the input. -/
theorem mergeSort_filter_tied (rows : List GapRow) (p : GapRow → Bool)
    (hp : ∀ a b, p a = true → p b = true → gapLE a b = true) :
    (rows.mergeSort gapLE).filter p = rows.filter p := by
  have hself : (rows.filter p).filter p = rows.filter p :=
    List.filter_eq_self.mpr (fun a ha => (List.mem_filter.mp ha).2)
  have hsub1 : List.Sublist (rows.filter p) (rows.mergeSort gapLE) :=
    List.sublist_mergeSort gapLE_trans gapLE_total
      (List.pairwise_of_forall_mem_list
        (fun a ha b hb => hp a b (List.mem_filter.mp ha).2 (List.mem_filter.mp hb).2))
      (List.filter_sublist rows)
  have hsub2 : List.Sublist (rows.filter p) ((rows.mergeSort gapLE).filter p) := by
    rw [← hself]
    exact List.Sublist.filter p hsub1
  have hlen : ((rows.mergeSort gapLE).filter p).length = (rows.filter p).length :=
    ((List.mergeSort_perm rows gapLE).filter p).length_eq
  exact (hsub2.eq_of_length hlen.symm).symm

/-- C2: in the ranked output, a conflict row never follows a non-conflict row;
among rows with the same conflict flag the magnitude is non-increasing; and
rows tied on both conflict and magnitude keep the order of the unranked row
list, which lists the axes in declaration order (the sort is stable). -/
theorem analyze_ranking_invariant (cur tgt : ScoreProfile) (q : ℚ)
    (hc : ValidScoreProfile cur) (ht : ValidScoreProfile tgt) :
    ∃ rows out, gapRows cur tgt q = some rows ∧ analyze cur tgt q = some out ∧
      rows.map (·.lens) = AXES.map (·.1) ∧
      (∀ (i j : Fin out.length), i < j →
        ((out.get j).conflict = true → (out.get i).conflict = true) ∧
        ((out.get i).conflict = (out.get j).conflict →
          (out.get j).magnitude ≤ (out.get i).magnitude)) ∧
      (∀ (c : Bool) (m : ℤ),
        out.filter (fun r => r.conflict == c && r.magnitude == m)
          = rows.filter (fun r => r.conflict == c && r.magnitude == m)) := by
  obtain ⟨rows, hrows⟩ := gapRows_isSome_of_valid q hc ht
  obtain ⟨hmap, _⟩ := gapRowsAux_sound cur tgt q AXES rows hrows
  refine ⟨rows, rows.mergeSort gapLE, hrows, by simp [analyze, hrows], hmap, ?_, ?_⟩
  · have hsorted : (rows.mergeSort gapLE).Pairwise (fun a b => gapLE a b) :=
      List.sorted_mergeSort gapLE_trans gapLE_total rows
    intro i j hij
    exact gapLE_spec (List.pairwise_iff_get.mp hsorted i j hij)
  · intro c m
    apply mergeSort_filter_tied
    intro a b hpa hpb
    simp only [Bool.and_eq_true, beq_iff_eq] at hpa hpb
    simp [gapLE, hpa.1, hpb.1, hpa.2, hpb.2]

/-- Witness for C2: instantiated on the default all-50 profiles. -/
theorem analyze_ranking_invariant_witness :
    ValidScoreProfile profile50 ∧
      ∃ rows out, gapRows profile50 profile50 3 = some rows ∧
        analyze profile50 profile50 3 = some out ∧
        rows.map (·.lens) = AXES.map (·.1) ∧
        (∀ (i j : Fin out.length), i < j →
          ((out.get j).conflict = true → (out.get i).conflict = true) ∧
          ((out.get i).conflict = (out.get j).conflict →
            (out.get j).magnitude ≤ (out.get i).magnitude)) ∧
        (∀ (c : Bool) (m : ℤ),
          out.filter (fun r => r.conflict == c && r.magnitude == m)
            = rows.filter (fun r => r.conflict == c && r.magnitude == m)) :=
  ⟨by decide, analyze_ranking_invariant profile50 profile50 3 (by decide) (by decide)⟩

/-- C3 counterexample: at level Mastering (high-readiness band) a target of 70
is in range and satisfies `70 ≤ t`, yet neither the Governance Structure nor
the Access Philosophy rule fires — the code's high-readiness threshold is 80,
not 70. -/
theorem conflict_threshold_counterexample :
    maturity_label 5 = "Mastering" ∧ ((0:ℤ) ≤ 70 ∧ (70:ℤ) ≤ 100 ∧ (70:ℤ) ≤ 70) ∧
    conflict_for_target "Governance Structure" 70 5 = none ∧
    conflict_for_target "Access Philosophy" 70 5 = none := by decide

/-- C3 (amended): for every maturity average whose level is in the
high-readiness band (Developing or Mastering) and every target score in
0..100, the Governance Structure rule returns the over-centralised message
exactly when the target is at least 80, and the Access Philosophy rule
returns the excess-control message exactly when the target is at least 80. -/
theorem conflict_highish_threshold (q : ℚ) (t : ℤ)
    (hq : maturity_label q = "Developing" ∨ maturity_label q = "Mastering")
    (ht0 : 0 ≤ t) (ht1 : t ≤ 100) :
    conflict_for_target "Governance Structure" t q =
      (if 80 ≤ t then
        some "Highly centralised models may slow teams at higher maturity — consider selective federation."
      else none) ∧
    conflict_for_target "Access Philosophy" t q =
      (if 80 ≤ t then
        some "Excessive control may limit value realisation — revisit openness where safe."
      else none) := by
  rcases hq with h | h <;> simp [conflict_for_target, h]

/-- Witness for C3 (amended): instantiated at level Mastering and target 85. -/
theorem conflict_highish_threshold_witness :
    conflict_for_target "Governance Structure" 85 5 =
      (if (80:ℤ) ≤ 85 then
        some "Highly centralised models may slow teams at higher maturity — consider selective federation."
      else none) ∧
    conflict_for_target "Access Philosophy" 85 5 =
      (if (80:ℤ) ≤ 85 then
        some "Excessive control may limit value realisation — revisit openness where safe."
      else none) :=
  conflict_highish_threshold 5 85 (Or.inr (by decide)) (by decide) (by decide)

/-- C9: when the overall maturity level is Learning, the conflict advisor
returns no message for any lens and any target score: Learning is in neither
the low-readiness band (Beginning/Emerging) nor the high-side band
(Developing/Mastering) that the rules test. -/
theorem conflict_none_at_learning (lens : String) (t : ℤ) (q : ℚ)
    (hq : maturity_label q = "Learning") :
    conflict_for_target lens t q = none := by
  simp [conflict_for_target, hq]

/-- Witness for C9: the default average 3 has level Learning and flags
nothing, even for an extreme target. -/
theorem conflict_none_at_learning_witness :
    conflict_for_target "Delivery Mode" 90 3 = none :=
  conflict_none_at_learning "Delivery Mode" 90 3 (by decide)

theorem sum_bounds (l : List ℤ) (lo hi : ℤ) (h : ∀ x ∈ l, lo ≤ x ∧ x ≤ hi) :
    (l.length : ℤ) * lo ≤ l.sum ∧ l.sum ≤ (l.length : ℤ) * hi := by
  induction l with
  | nil => simp
  | cons a rest ih =>
    have ha := h a (by simp)
    have hr := ih (fun x hx => h x (by simp [hx]))
    simp only [List.sum_cons, List.length_cons]
    push_cast
    constructor <;> nlinarith [hr.1, hr.2, ha.1, ha.2]

theorem valid_maturity_length {m : MaturityProfile} (h : ValidMaturityProfile m) :
    m.length = 6 := by
  have := h.1.length_eq
  simpa [MATURITY_THEMES] using this

theorem cast_sum_map (l : List (String × ℤ)) :
    (l.map (fun x => ((x.2 : ℤ) : ℚ))).sum = (((l.map (fun x => x.2)).sum : ℤ) : ℚ) := by
  push_cast
  simp only [List.map_map]
  rfl

/-- The average of a valid maturity profile lies in the scale range 1..5. -/
theorem m_average_bounds {m : MaturityProfile} (h : ValidMaturityProfile m) :
    1 ≤ m_average m ∧ m_average m ≤ 5 := by
  have hlen := valid_maturity_length h
  have hb := sum_bounds (m.map (·.2)) 1 5 (by
    intro x hx
    obtain ⟨pr, hpr, rfl⟩ := List.mem_map.mp hx
    exact h.2 pr hpr)
  simp only [List.length_map, hlen] at hb
  push_cast at hb
  unfold m_average
  rw [hlen]
  have ed : ((6:ℕ):ℚ) = (6:ℚ) := by norm_num
  rw [ed]
  have key : ((((m.map (fun x => x.2)).sum : ℤ)) : ℚ) = (m.map (fun x => ((x.2 : ℤ) : ℚ))).sum := by
    push_cast
    simp only [List.map_map]
    rfl
  rw [show (m.map (fun x => ((x.2 : ℤ) : ℚ))).sum = ((((m.map (fun x => x.2)).sum : ℤ)) : ℚ) from key.symm]
  set S : ℤ := (m.map (fun x => x.2)).sum with hS
  clear_value S
  have hq1 : (6:ℚ) ≤ (S:ℚ) := by exact_mod_cast hb.1
  have hq2 : (S:ℚ) ≤ (30:ℚ) := by exact_mod_cast hb.2
  constructor
  · rw [le_div_iff₀ (by norm_num)]
    linarith
  · rw [div_le_iff₀ (by norm_num)]
    linarith

theorem sum_set_le (l : List ℤ) (i : ℕ) (v : ℤ) (hi : i < l.length)
    (hv : l.get ⟨i, hi⟩ ≤ v) : l.sum ≤ (l.set i v).sum := by
  induction l generalizing i with
  | nil => simp at hi
  | cons a rest ih =>
    cases i with
    | zero =>
      simp only [List.set, List.sum_cons]
      simp only [List.get] at hv
      linarith
    | succ n =>
      simp only [List.set, List.sum_cons]
      have := ih n (by simpa using hi) (by simpa using hv)
      linarith

theorem levelRank_scale (k : ℤ) (h1 : 1 ≤ k) (h2 : k ≤ 5) :
    levelRank (MATURITY_SCALE k) = k.toNat := by
  interval_cases k <;> decide

theorem levelRank_label_mono {q r : ℚ} (h : q ≤ r) :
    levelRank (maturity_label q) ≤ levelRank (maturity_label r) := by
  have hm := pyRound_mono h
  have e1 : levelRank (maturity_label q) = (max 1 (min 5 (pyRound q))).toNat := by
    rw [maturity_label, levelRank_scale _ (by omega) (by omega)]
  have e2 : levelRank (maturity_label r) = (max 1 (min 5 (pyRound r))).toNat := by
    rw [maturity_label, levelRank_scale _ (by omega) (by omega)]
  rw [e1, e2]
  omega

/-- C4: for every valid maturity profile the aggregation of `render_journey`
returns the unrounded average `sum / 6`, and a level equal to
`MATURITY_SCALE (clamp (round average) 1 5)`; inside the scale range the
clamp is inert and the rounded value is within half a point of the average
(nearest level); all themes at 1 give `(1.0, Beginning)` and all themes at 5
give `(5.0, Mastering)`. -/
theorem aggregate_average_and_level (m : MaturityProfile) (h : ValidMaturityProfile m) :
    (aggregate m).1 = (((m.map (fun x => x.2)).sum : ℤ) : ℚ) / 6 ∧
    (aggregate m).2 = MATURITY_SCALE (max 1 (min 5 (pyRound (aggregate m).1))) ∧
    max 1 (min 5 (pyRound (aggregate m).1)) = pyRound (aggregate m).1 ∧
    |(aggregate m).1 - (pyRound (aggregate m).1 : ℚ)| ≤ 1 / 2 ∧
    aggregate maturity1 = (1, "Beginning") ∧
    aggregate maturity5 = (5, "Mastering") := by
  have hb := m_average_bounds h
  have hrange := pyRound_range hb.1 hb.2
  have havg : (aggregate m).1 = (((m.map (fun x => x.2)).sum : ℤ) : ℚ) / 6 := by
    show m_average m = _
    unfold m_average
    rw [valid_maturity_length h, cast_sum_map]
    norm_num
  refine ⟨havg, rfl, ?_, ?_, ?_, ?_⟩
  · show max 1 (min 5 (pyRound (m_average m))) = pyRound (m_average m)
    omega
  · exact pyRound_nearest _
  · have h1 : m_average maturity1 = 1 := by
      norm_num [m_average, maturity1, MATURITY_THEMES]
    show (m_average maturity1, maturity_label (m_average maturity1)) = (1, "Beginning")
    rw [h1, Prod.mk.injEq]
    exact ⟨rfl, by decide⟩
  · have h5 : m_average maturity5 = 5 := by
      norm_num [m_average, maturity5, MATURITY_THEMES]
    show (m_average maturity5, maturity_label (m_average maturity5)) = (5, "Mastering")
    rw [h5, Prod.mk.injEq]
    exact ⟨rfl, by decide⟩

/-- Witness for C4: instantiated at the default all-3 profile. -/
theorem aggregate_average_and_level_witness :
    ValidMaturityProfile maturity3 ∧
      (aggregate maturity3).1 = (((maturity3.map (fun x => x.2)).sum : ℤ) : ℚ) / 6 ∧
      aggregate maturity1 = (1, "Beginning") ∧
      aggregate maturity5 = (5, "Mastering") := by
  have h := aggregate_average_and_level maturity3 (by decide)
  exact ⟨by decide, h.1, h.2.2.2.2.1, h.2.2.2.2.2⟩

/-- C8: increasing any single theme score of a valid maturity profile, the
others fixed, never decreases the aggregated average and never decreases the
mapped maturity level. -/
theorem aggregate_monotone (m : MaturityProfile) (i : ℕ) (hi : i < m.length) (v : ℤ)
    (hm : ValidMaturityProfile m) (hv : (m.get ⟨i, hi⟩).2 ≤ v) (hv5 : v ≤ 5) :
    m_average m ≤ m_average (m.set i ((m.get ⟨i, hi⟩).1, v)) ∧
    levelRank (maturity_label (m_average m)) ≤
      levelRank (maturity_label (m_average (m.set i ((m.get ⟨i, hi⟩).1, v)))) := by
  have hlen : (m.set i ((m.get ⟨i, hi⟩).1, v)).length = m.length := List.length_set m i _
  have hmap : (m.set i ((m.get ⟨i, hi⟩).1, v)).map (fun x => x.2)
      = (m.map (fun x => x.2)).set i v := by
    rw [List.map_set]
  have hgi : (m.map (fun x => x.2)).get ⟨i, by simpa using hi⟩ = (m.get ⟨i, hi⟩).2 := by
    simp
  have hsum : (m.map (fun x => x.2)).sum
      ≤ ((m.set i ((m.get ⟨i, hi⟩).1, v)).map (fun x => x.2)).sum := by
    rw [hmap]
    exact sum_set_le (m.map (fun x => x.2)) i v (by simpa using hi) (by rw [hgi]; exact hv)
  have havg : m_average m ≤ m_average (m.set i ((m.get ⟨i, hi⟩).1, v)) := by
    unfold m_average
    rw [hlen, cast_sum_map, cast_sum_map]
    have hq : (((m.map (fun x => x.2)).sum : ℤ) : ℚ) ≤
        ((((m.set i ((m.get ⟨i, hi⟩).1, v)).map (fun x => x.2)).sum : ℤ) : ℚ) :=
      Int.cast_le.mpr hsum
    have hpos : (0:ℚ) < (m.length : ℚ) := by
      have h0 : 0 < m.length := lt_of_le_of_lt (Nat.zero_le i) hi
      exact_mod_cast h0
    gcongr
  exact ⟨havg, levelRank_label_mono havg⟩

/-- Witness for C8: raising the first theme of the default profile from 3 to 5
does not decrease the average or the level. -/
theorem aggregate_monotone_witness :
    m_average maturity3 ≤ m_average (maturity3.set 0 ((maturity3.get ⟨0, by decide⟩).1, 5)) ∧
    levelRank (maturity_label (m_average maturity3)) ≤
      levelRank (maturity_label
        (m_average (maturity3.set 0 ((maturity3.get ⟨0, by decide⟩).1, 5)))) :=
  aggregate_monotone maturity3 0 (by decide) 5 (by decide) (by decide) (by decide)

theorem seed_action_row_fields (i : ℕ) (row : GapRow) (a : ActionRow)
    (h : seed_action_row i row = some a) :
    a.priority = i ∧ a.lens = row.lens ∧ a.owner = "" ∧ a.timeline = "" ∧
    a.metric = "" ∧ a.status = "" ∧
    ∃ lr, labelsFor row.lens = some lr ∧
      a.direction = (if 0 < row.change_needed then "toward " ++ lr.2
        else if row.change_needed < 0 then "toward " ++ lr.1 else "no change") := by
  cases hx : labelsFor row.lens with
  | none => rw [seed_action_row, hx] at h; exact absurd h (by simp)
  | some lr =>
    rw [seed_action_row, hx] at h
    simp only [Option.map_some', Option.some_inj] at h
    subst h
    exact ⟨rfl, rfl, rfl, rfl, rfl, rfl, ⟨lr, rfl, rfl⟩⟩

theorem seedActionsAux_spec (l : List GapRow) :
    ∀ (i : ℕ), (∀ r ∈ l, (labelsFor r.lens).isSome) →
      ∃ acts, seedActionsAux i l = some acts ∧ acts.length = l.length ∧
        ∀ (j : ℕ) (hj : j < l.length), ∃ hj2 : j < acts.length,
          seed_action_row (i + j) (l.get ⟨j, hj⟩) = some (acts.get ⟨j, hj2⟩) := by
  induction l with
  | nil =>
    intro i _
    exact ⟨[], rfl, rfl, fun j hj => absurd hj (by simp)⟩
  | cons row rest ih =>
    intro i hl
    obtain ⟨lr, hlr⟩ := Option.isSome_iff_exists.mp (hl row (by simp))
    obtain ⟨acts, hacts, hlen, hspec⟩ := ih (i + 1) (fun r hr => hl r (by simp [hr]))
    obtain ⟨a0, ha0⟩ : ∃ a0, seed_action_row i row = some a0 := by
      rw [seed_action_row, hlr]
      exact ⟨_, rfl⟩
    refine ⟨a0 :: acts, ?_, by simp [hlen], ?_⟩
    · rw [seedActionsAux, ha0, hacts]
    · intro j hj
      cases j with
      | zero =>
        refine ⟨by simp, ?_⟩
        simpa using ha0
      | succ n =>
        have hn : n < rest.length := by simpa using hj
        obtain ⟨hj2, hsp⟩ := hspec n hn
        refine ⟨by simpa using hj2, ?_⟩
        have harith : i + (n + 1) = (i + 1) + n := by omega
        rw [harith]
        simpa using hsp

/-- C6: on a ten-row ranked input with `top_n = 3` the action seeder returns
exactly three ActionRows whose priorities are 1, 2, 3 in input order, each row
built by `seed_action_row` from the corresponding ranked row; every emitted
row has empty Owner/Timeline/Metric/Status; `seed_action_row` assigns the
direction text toward the right label for a positive change, toward the left
label for a negative one, and "no change" otherwise; and an empty ranked
input yields an empty sequence, not an error. -/
theorem seed_actions_spec (ranked : List GapRow)
    (hlen : ranked.length = 10)
    (hlab : ∀ r ∈ ranked, (labelsFor r.lens).isSome) :
    (∃ acts, seed_actions ranked 3 = some acts ∧ acts.length = 3 ∧
      acts.map (fun a => a.priority) = [1, 2, 3] ∧
      (∀ (j : ℕ) (hj3 : j < 3), ∃ (hj2 : j < acts.length) (hjr : j < ranked.length),
        seed_action_row (j + 1) (ranked.get ⟨j, hjr⟩) = some (acts.get ⟨j, hj2⟩)) ∧
      (∀ x ∈ acts, x.owner = "" ∧ x.timeline = "" ∧ x.metric = "" ∧ x.status = "")) ∧
    (∀ (i : ℕ) (row : GapRow) (x : ActionRow), seed_action_row i row = some x →
      x.priority = i ∧ x.lens = row.lens ∧ x.owner = "" ∧ x.timeline = "" ∧
      x.metric = "" ∧ x.status = "" ∧
      ∃ lr, labelsFor row.lens = some lr ∧
        x.direction = (if 0 < row.change_needed then "toward " ++ lr.2
          else if row.change_needed < 0 then "toward " ++ lr.1 else "no change")) ∧
    (∀ n : ℕ, seed_actions [] n = some []) := by
  refine ⟨?_, seed_action_row_fields, fun n => by cases n <;> rfl⟩
  have htake : (ranked.take 3).length = 3 := by
    rw [List.length_take, hlen]
    rfl
  have hlab3 : ∀ r ∈ ranked.take 3, (labelsFor r.lens).isSome :=
    fun r hr => hlab r (List.mem_of_mem_take hr)
  obtain ⟨acts, hacts, hlen3, hspec⟩ := seedActionsAux_spec (ranked.take 3) 1 hlab3
  rw [htake] at hlen3
  obtain ⟨a, b, c, hacts_eq⟩ := List.length_eq_three.mp hlen3
  subst hacts_eq
  obtain ⟨hj0, hs0⟩ := hspec 0 (by rw [htake]; norm_num)
  obtain ⟨hj1, hs1⟩ := hspec 1 (by rw [htake]; norm_num)
  obtain ⟨hj2, hs2⟩ := hspec 2 (by rw [htake]; norm_num)
  rw [show ([a, b, c].get ⟨0, hj0⟩) = a from rfl] at hs0
  rw [show ([a, b, c].get ⟨1, hj1⟩) = b from rfl] at hs1
  rw [show ([a, b, c].get ⟨2, hj2⟩) = c from rfl] at hs2
  have f0 := seed_action_row_fields _ _ _ hs0
  have f1 := seed_action_row_fields _ _ _ hs1
  have f2 := seed_action_row_fields _ _ _ hs2
  refine ⟨[a, b, c], hacts, rfl, ?_, ?_, ?_⟩
  · simp only [List.map_cons, List.map_nil]
    rw [f0.1, f1.1, f2.1]
  · intro j hj3
    interval_cases j
    · refine ⟨by norm_num, by omega, ?_⟩
      simp only [List.get_eq_getElem, List.getElem_take] at hs0 ⊢
      simpa using hs0
    · refine ⟨by norm_num, by omega, ?_⟩
      simp only [List.get_eq_getElem, List.getElem_take] at hs1 ⊢
      simpa using hs1
    · refine ⟨by norm_num, by omega, ?_⟩
      simp only [List.get_eq_getElem, List.getElem_take] at hs2 ⊢
      simpa using hs2
  · intro x hx
    rcases List.mem_cons.mp hx with rfl | hx
    · exact ⟨f0.2.2.1, f0.2.2.2.1, f0.2.2.2.2.1, f0.2.2.2.2.2.1⟩
    rcases List.mem_cons.mp hx with rfl | hx
    · exact ⟨f1.2.2.1, f1.2.2.2.1, f1.2.2.2.2.1, f1.2.2.2.2.2.1⟩
    rcases List.mem_cons.mp hx with rfl | hx
    · exact ⟨f2.2.2.1, f2.2.2.2.1, f2.2.2.2.2.1, f2.2.2.2.2.2.1⟩
    · exact absurd hx (by simp)

/-- Witness for C6: a concrete ten-row ranked input produces exactly three
seeded action rows with priorities 1, 2, 3. -/
theorem seed_actions_spec_witness :
    sampleRows.length = 10 ∧
      ∃ acts, seed_actions sampleRows 3 = some acts ∧ acts.length = 3 ∧
        acts.map (fun a => a.priority) = [1, 2, 3] := by
  refine ⟨by decide, ?_⟩
  obtain ⟨⟨acts, h1, h2, h3, _⟩, _, _⟩ := seed_actions_spec sampleRows (by decide) (by decide)
  exact ⟨acts, h1, h2, h3⟩

/-- C7: with `current["Governance Structure"] = 80`,
`target["Governance Structure"] = 20` and a maturity average of 5 (level
Mastering), the report contains a Governance Structure row with
`change_needed = -60`, magnitude 60, direction toward the axis's left label
"Ecosystem / Federated", and no conflict flag. -/
theorem governance_gap_at_mastering :
    maturity_label 5 = "Mastering" ∧
    ∃ out, analyze curGov tgtGov 5 = some out ∧
      ({ lens := "Governance Structure", current := 80, target := 20, change_needed := -60,
         magnitude := 60, direction := "→ **Ecosystem / Federated**", conflict := false,
         conflict_note := "" } : GapRow) ∈ out := by
  refine ⟨by decide, ?_⟩
  have hg : gapRows curGov tgtGov 5 = some ((gapRows curGov tgtGov 5).getD []) := by decide
  refine ⟨((gapRows curGov tgtGov 5).getD []).mergeSort gapLE, ?_, ?_⟩
  · rw [analyze, hg]
    rfl
  · rw [List.mem_mergeSort]
    decide

/-- C5 counterexample: a profile whose Ambition value is 150 — outside the
declared 0..100 range — is not rejected: the gap analyzer produces the full
ten-row report instead of failing with any error. -/
theorem invalid_input_counterexample :
    (∃ pr ∈ profileBad, ¬(0 ≤ pr.2 ∧ pr.2 ≤ 100)) ∧
    ∃ out, analyze profileBad profile50 3 = some out ∧ out.length = 10 := by
  refine ⟨by decide, ?_⟩
  have hg : gapRows profileBad profile50 3 = some ((gapRows profileBad profile50 3).getD []) := by
    decide
  refine ⟨((gapRows profileBad profile50 3).getD []).mergeSort gapLE, ?_, ?_⟩
  · rw [analyze, hg]
    rfl
  · rw [List.length_mergeSort]
    decide

/-- C5 (amended): the code performs no range validation and has no
`InvalidInput` error.  The gap analyzer fails — with a key-lookup error,
embedded as `none` — exactly when some axis name is missing from either
profile, and otherwise returns the full ten-row report, so there is no
partial result; values outside 0..100 are accepted silently. -/
theorem analyze_failure_characterisation :
    (∀ (cur tgt : ScoreProfile) (q : ℚ),
      analyze cur tgt q = none ↔ ∃ a ∈ AXES, tgt.lookup a.1 = none ∨ cur.lookup a.1 = none) ∧
    (∀ (cur tgt : ScoreProfile) (q : ℚ) (rows : List GapRow),
      analyze cur tgt q = some rows → rows.length = 10) := by
  constructor
  · intro cur tgt q
    rw [analyze, Option.map_eq_none']
    exact gapRowsAux_eq_none_iff cur tgt q AXES
  · intro cur tgt q rows h
    rw [analyze] at h
    cases hg : gapRows cur tgt q with
    | none => rw [hg] at h; exact absurd h (by simp)
    | some rs =>
      rw [hg] at h
      simp only [Option.map_some', Option.some_inj] at h
      have hmap := (gapRowsAux_sound cur tgt q AXES rs hg).1
      have h10 : rs.length = 10 := by
        have := congrArg List.length hmap
        simpa using this
      rw [← h, List.length_mergeSort, h10]

/-- Witness for C5 (amended): an empty current profile makes the analyzer
fail, while the out-of-range profile yields a full ten-row report. -/
theorem analyze_failure_characterisation_witness :
    analyze [] profile50 3 = none ∧
    ∃ rows, analyze profileBad profile50 3 = some rows ∧ rows.length = 10 := by
  constructor
  · exact (analyze_failure_characterisation.1 [] profile50 3).mpr
      ⟨("Abstraction Level", "Conceptual", "Logical / Physical"), by decide, Or.inr (by decide)⟩
  · have hg : gapRows profileBad profile50 3
        = some ((gapRows profileBad profile50 3).getD []) := by decide
    have hsome : analyze profileBad profile50 3
        = some (((gapRows profileBad profile50 3).getD []).mergeSort gapLE) := by
      rw [analyze, hg]
      rfl
    exact ⟨_, hsome, analyze_failure_characterisation.2 profileBad profile50 3 _ hsome⟩

theorem dashRowsAux_refines (cur tgt : ScoreProfile) (q : ℚ) :
    ∀ axes, dashRowsAux cur tgt axes = (gapRowsAux cur tgt q axes).map (List.map toDashRow) := by
  intro axes
  induction axes with
  | nil => rfl
  | cons a rest ih =>
    obtain ⟨d, l, rl⟩ := a
    simp only [dashRowsAux, gapRowsAux]
    cases ht : List.lookup d tgt with
    | none => rfl
    | some t =>
      cases hc : List.lookup d cur with
      | none => rfl
      | some c =>
        rw [ih]
        cases hrest : gapRowsAux cur tgt q rest with
        | none => rfl
        | some rs =>
          simp [toDashRow, mkRow]

/-- C10: for every pair of profiles and every maturity average, the per-axis
gap rows of `dashboard.py`'s journey tab are exactly the rows of
`journey_tab.py`'s `render_journey` with the conflict columns forgotten
(same lens, current, target, change, magnitude and direction strings, same
failure on a missing key); the prototypes differ only in the ranking, which
in `dashboard.py` sorts by magnitude alone. -/
theorem dashboard_refines_journey (cur tgt : ScoreProfile) (q : ℚ) :
    dashRows cur tgt = (gapRows cur tgt q).map (List.map toDashRow) ∧
    dashAnalyze cur tgt = (dashRows cur tgt).map
      (fun rows => rows.mergeSort (fun a b => decide (b.magnitude ≤ a.magnitude))) :=
  ⟨dashRowsAux_refines cur tgt q AXES, rfl⟩
